import Mathlib

/-!
Verification of the benchmark orchestration and metrics-extraction pipeline of the
`biconnected-components` repository (`AAD_CP`).  The Python sources are shallowly
embedded: text is `List Char` (a file is a `List (List Char)` of its lines), the
string primitives `str.strip` / `str.split` / `int(...)` are modelled on the ASCII
fragment the corpus uses (Python additionally accepts unicode digits and underscore
separators in `int`, which never occur in these reports), and external effects
(child processes, the file system) are passed in explicitly as values or oracles.
-/

set_option maxRecDepth 40000

namespace Bench

/-! ## Python string primitives (ASCII fragment) -/

/-- Characters `str.strip()` / `str.split()` treat as whitespace. -/
def pyIsSpace (c : Char) : Bool :=
  c = ' ' || c = '\t' || c = '\n' || c = '\r' || c = '\x0b' || c = '\x0c'

/-- Python `str.strip()`: drop leading and trailing whitespace. -/
def pyStrip (s : List Char) : List Char :=
  ((s.dropWhile pyIsSpace).reverse.dropWhile pyIsSpace).reverse

/-- Accumulator form of `str.split()` (split on whitespace runs, dropping empties). -/
def pySplitWsAux : List Char → List Char → List (List Char)
  | cur, [] => if cur.isEmpty then [] else [cur.reverse]
  | cur, c :: cs =>
    if pyIsSpace c then
      if cur.isEmpty then pySplitWsAux [] cs
      else cur.reverse :: pySplitWsAux [] cs
    else pySplitWsAux (c :: cur) cs

/-- Python `str.split()` with no separator argument. -/
def pySplitWs (s : List Char) : List (List Char) := pySplitWsAux [] s

/-- Python `str.split(sep)` for a one-character separator: keeps empty pieces. -/
def pySplitChar (sep : Char) : List Char → List (List Char)
  | [] => [[]]
  | c :: cs =>
    if c = sep then [] :: pySplitChar sep cs
    else
      match pySplitChar sep cs with
      | [] => [[c]]
      | t :: ts => (c :: t) :: ts

/-- Value of a (decimal, ASCII) digit string. -/
def digitsToNat (l : List Char) : Nat :=
  l.foldl (fun a c => a * 10 + (c.toNat - 48)) 0

/-- Python `str.isdigit()` on the ASCII fragment: nonempty and all digits. -/
def pyIsDigitStr (l : List Char) : Bool :=
  !l.isEmpty && l.all (fun c => c.isDigit)

/-- Python `int(s)`: optional surrounding whitespace, optional sign, then digits;
`none` models the `ValueError` raised on anything else. -/
def pyInt (s : List Char) : Option Int :=
  match pyStrip s with
  | '+' :: ds => if pyIsDigitStr ds then some (digitsToNat ds) else none
  | '-' :: ds => if pyIsDigitStr ds then some (-(digitsToNat ds : Int)) else none
  | ds => if pyIsDigitStr ds then some (digitsToNat ds) else none

/-- Python's `pat in s` substring test. -/
def containsSub (pat : List Char) : List Char → Bool
  | [] => pat.isEmpty
  | c :: cs => pat.isPrefixOf (c :: cs) || containsSub pat cs

/-! ## Profiler report parsing (`scripts/parse_cachegrind.py`, lines 29-63) -/

/-- The eleven hardware counters extracted from a `cg_annotate` PROGRAM TOTALS line,
in the order the source assigns them (`parse_cachegrind_output`, lines 46-58). -/
structure ProfilerMetrics where
  Ir : Nat
  I1mr : Nat
  ILmr : Nat
  Dr : Nat
  D1mr : Nat
  DLmr : Nat
  Dw : Nat
  D1mw : Nat
  DLmw : Nat
  Bc : Nat
  Bcm : Nat
  deriving DecidableEq, Repr

/-- The comma removal `token.replace(',', '')`. -/
def stripCommas (l : List Char) : List Char := l.filter (fun c => c ≠ ',')

/-- The validation the source applies to the token after a number:
`tokens[i+1].startswith('(') and tokens[i+1].endswith('%)')`. -/
def loosePct (u : List Char) : Bool :=
  ['('].isPrefixOf u && ['%', ')'].isSuffixOf u

/-- The integer-extraction loop over the whitespace tokens of a line: a token counts
when, with commas removed, it is all digits and the next token passes `loosePct`
(the last token never counts, since it has no next token). -/
def extractNumbers : List (List Char) → List Nat
  | [] => []
  | [_] => []
  | t :: u :: rest =>
    let t' := stripCommas t
    if pyIsDigitStr t' && loosePct u then digitsToNat t' :: extractNumbers (u :: rest)
    else extractNumbers (u :: rest)

def PROGRAM_TOTALS : List Char := "PROGRAM TOTALS".toList

/-- Build the metrics record from the first eleven extracted numbers
(fields in the fixed source order). -/
def mkMetrics (ns : List Nat) : ProfilerMetrics :=
  { Ir := ns.getD 0 0, I1mr := ns.getD 1 0, ILmr := ns.getD 2 0, Dr := ns.getD 3 0
    D1mr := ns.getD 4 0, DLmr := ns.getD 5 0, Dw := ns.getD 6 0, D1mw := ns.getD 7 0
    DLmw := ns.getD 8 0, Bc := ns.getD 9 0, Bcm := ns.getD 10 0 }

/-- Per-line result: a line yields metrics when it contains the marker and at least
eleven qualifying integers are found in it. -/
def lineMetrics (line : List Char) : Option ProfilerMetrics :=
  if containsSub PROGRAM_TOTALS line then
    let ns := extractNumbers (pySplitWs line)
    if 11 ≤ ns.length then some (mkMetrics ns) else none
  else none

/-- Function `parse_cachegrind_output`: scan the report's lines and return the metrics of the
first line containing `PROGRAM TOTALS` with at least eleven qualifying integers;
`none` when no such line exists. -/
def parse_cachegrind_output (out : List Char) : Option ProfilerMetrics :=
  (pySplitChar '\n' out).findSome? lineMetrics

/-- Modelled from the spec: the percentage-token shape the claim prescribes,
`(<digits>.<digits>%)`, which the source does NOT check beyond its first and
last characters. -/
def strictPct (u : List Char) : Bool :=
  match u with
  | '(' :: rest =>
    ['%', ')'].isSuffixOf rest &&
      (match (rest.dropLast.dropLast).splitOn '.' with
       | [a, b] => pyIsDigitStr a && pyIsDigitStr b
       | _ => false)
  | _ => false

/-- Modelled from the spec: integer extraction as the claim describes it, counting
only integers whose next token has the strict `(<digits>.<digits>%)` shape. -/
def strictNumbers : List (List Char) → List Nat
  | [] => []
  | [_] => []
  | t :: u :: rest =>
    let t' := stripCommas t
    if pyIsDigitStr t' && strictPct u then digitsToNat t' :: strictNumbers (u :: rest)
    else strictNumbers (u :: rest)

/-! ## Graph-file header reading (`scripts/run_all.py`, lines 51-93) -/

/-- One step of `gen_from_file`'s loop body: strip the line, skip it when blank,
a `#` comment, fewer than two tokens after turning commas into spaces, or a
non-integer endpoint; otherwise yield the first two tokens as an edge. -/
def parseEdgeLine (line : List Char) : Option (Int × Int) :=
  let l := pyStrip line
  if l.isEmpty then none
  else if l.headD ' ' = '#' then none
  else
    let a := pySplitWs (l.map fun c => if c = ',' then ' ' else c)
    if a.length < 2 then none
    else
      match pyInt (a.getD 0 []), pyInt (a.getD 1 []) with
      | some u, some v => some (u, v)
      | _, _ => none

/-- Function `gen_from_file`: the edges yielded from a sequence of lines. -/
def gen_from_file (lines : List (List Char)) : List (Int × Int) :=
  lines.filterMap parseEdgeLine

/-- The header-detection step of `read_header_and_edges`: split the stripped first
line; when it has at least two tokens whose first two parse as `int`s, these are
`(n, m)`; any failure (including a `#` first line) falls through. -/
def headerParse (lines : List (List Char)) : Option (Int × Int) :=
  let parts := pySplitWs (pyStrip (lines.headD []))
  if 2 ≤ parts.length then
    match pyInt (parts.getD 0 []), pyInt (parts.getD 1 []) with
    | some n, some m => some (n, m)
    | _, _ => none
  else none

/-- Function `read_header_and_edges`: on header success, `(n, m)` plus the edges of the
remaining lines; otherwise rewind and infer `n = 1 + max endpoint`,
`m = number of parsed edges` from the whole file (`0, 0` when no edge parses). -/
def read_header_and_edges (lines : List (List Char)) : Int × Int × List (Int × Int) :=
  match headerParse lines with
  | some (n, m) => (n, m, gen_from_file lines.tail)
  | none =>
    match gen_from_file lines with
    | [] => (0, 0, [])
    | e :: es =>
      (es.foldl (fun a uv => max a (max uv.1 uv.2)) (max e.1 e.2) + 1,
        ((e :: es).length : Int), e :: es)

/-- Modelled from the spec: the counts the claim prescribes — read from the first
non-comment line as two whitespace-separated integers, `None` for both on a
malformed or missing header. -/
def spec_header_counts (lines : List (List Char)) : Option Int × Option Int :=
  match lines.dropWhile (fun l => (pyStrip l).headD '#' = '#') with
  | [] => (none, none)
  | l :: _ =>
    match pySplitWs (pyStrip l) with
    | a :: b :: _ =>
      match pyInt a, pyInt b with
      | some n, some m => (some n, some m)
      | _, _ => (none, none)
    | _ => (none, none)

/-- The result of `run_p1_only.py`'s header scan (lines 63-74): parsed counts, the
`(None, None)` assigned by the `except` arm, or — when no line qualifies — the
variables keep whatever they held before (a latent bug of the source). -/
inductive P1Counts where
  | counts (n m : Int)
  | noneCounts
  | unset
  deriving DecidableEq, Repr

/-- A line `run_p1_only.py`'s scan stops at: nonempty after strip, not a `#`
comment, and at least two whitespace tokens. -/
def p1Qual (l : List Char) : Bool :=
  !(pyStrip l).isEmpty && (pyStrip l).headD ' ' ≠ '#' &&
    2 ≤ (pySplitWs (pyStrip l)).length

/-- Source `run_p1_only.py` lines 63-74: scan for the first qualifying line and convert
its first two tokens with `int`; a conversion failure raises and the `except` arm
yields `(None, None)`. -/
def p1_read_nm : List (List Char) → P1Counts
  | [] => .unset
  | l :: ls =>
    if p1Qual l then
      let parts := pySplitWs (pyStrip l)
      match pyInt (parts.getD 0 []), pyInt (parts.getD 1 []) with
      | some n, some m => .counts n m
      | _, _ => .noneCounts
    else p1_read_nm ls

/-! ## Execution driver and result ledger (`scripts/run_all.py`, lines 142-262) -/

/-- The `exitcode` column: a completed run's integer exit code, or the
`'timeout'` / `'error'` sentinels. -/
inductive ExitStatus where
  | code (c : Int)
  | timeout
  | error
  deriving DecidableEq, Repr

/-- One row of the in-memory `results` list (the dict of lines 192-208). The
elapsed time is kept as an exact rational stand-in for the float the source
stores; none of the verified properties inspect its value. -/
structure ResultRecord where
  algorithm : String
  category : String
  file : String
  n : Option Int
  m : Option Int
  time : Option ℚ
  exitcode : ExitStatus
  output : String
  deriving DecidableEq, Repr

/-- What the external child process did: exited (with its merged stdout+stderr and
the measured elapsed time), exceeded the timeout (any partially captured output is
remembered here only to state that the driver discards it), or made
`subprocess.run` raise a non-timeout exception with a message. -/
inductive ProcOutcome where
  | completed (exitCode : Int) (stdout : String) (elapsed : ℚ)
  | timedOut (discardedOutput : String)
  | failed (msg : String)
  deriving DecidableEq, Repr

/-- The hard per-process timeout passed to `subprocess.run` (line 185). -/
def TIMEOUT_SECONDS : Nat := 600

/-- The sentinel written to the output artifact of a timed-out run (line 198). -/
def TIMEOUT_SENTINEL : String := "TIMEOUT\n"

/-- Discovered corpus file: its category, file name and the counts read for it. -/
structure GraphFileInfo where
  category : String
  name : String
  n : Option Int
  m : Option Int
  deriving DecidableEq, Repr

/-- Python `str(rel)`: the path of a corpus file relative to the dataset root. -/
def relOf (g : GraphFileInfo) : String := g.category ++ "/" ++ g.name

/-- The output artifact path `outputs/<exe>/<category>/<name>` (lines 176-178). -/
def outPathOf (exe : String) (g : GraphFileInfo) : String :=
  "outputs/" ++ exe ++ "/" ++ g.category ++ "/" ++ g.name

/-- Lines 181-208: turn one process outcome into the appended record and the text
written to the run's output artifact. Every branch of the source's
`try`/`except` appends exactly one record, so this is a total function. -/
def runOne (exe : String) (g : GraphFileInfo) (oc : ProcOutcome) :
    ResultRecord × String :=
  match oc with
  | .completed code out t =>
    ({ algorithm := exe, category := g.category, file := relOf g, n := g.n, m := g.m
       time := some t, exitcode := .code code, output := outPathOf exe g }, out)
  | .timedOut _ =>
    ({ algorithm := exe, category := g.category, file := relOf g, n := g.n, m := g.m
       time := none, exitcode := .timeout, output := outPathOf exe g }, TIMEOUT_SENTINEL)
  | .failed msg =>
    ({ algorithm := exe, category := g.category, file := relOf g, n := g.n, m := g.m
       time := none, exitcode := .error, output := outPathOf exe g },
      "ERROR: " ++ msg ++ "\n")

/-- The algorithms the batch attempts to build (line 20). -/
def EXEC_NAMES : List String := ["p1", "p2", "p4", "p5"]

/-- The batch loop of `run` (lines 157-208): one algorithm at a time over the full
corpus, appending one record per (algorithm, file) pair; `oracle` supplies each
child process's behaviour. -/
def runBatch (exes : List String) (files : List GraphFileInfo)
    (oracle : String → GraphFileInfo → ProcOutcome) : List ResultRecord :=
  exes.flatMap fun exe => files.map fun g => (runOne exe g (oracle exe g)).1

/-- The (algorithm, file) key of a record, as used by the coverage property. -/
def keyOf (r : ResultRecord) : String × String := (r.algorithm, r.file)

/-- The fixed CSV header row (lines 213 and 236). -/
def CSV_HEADER : List String :=
  ["algorithm", "category", "file", "n", "m", "time", "exitcode", "output"]

/-- How `csv.DictWriter` renders the optional integer columns (`None` → empty). -/
def cellOfOptInt : Option Int → String
  | none => ""
  | some k => toString k

/-- Rendering of the `time` column (`None` → empty; the numeral text of a present
value is not inspected by any property). -/
def cellOfTime : Option ℚ → String
  | none => ""
  | some t => toString t

/-- Rendering of the `exitcode` column. -/
def cellOfExit : ExitStatus → String
  | .code c => toString c
  | .timeout => "timeout"
  | .error => "error"

/-- One complete CSV row of a record, in the fixed column order. -/
def rowOf (r : ResultRecord) : List String :=
  [r.algorithm, r.category, r.file, cellOfOptInt r.n, cellOfOptInt r.m,
    cellOfTime r.time, cellOfExit r.exitcode, r.output]

/-- Lines 210-216 (and again 234-239): open `results.csv` in `'w'` mode —
truncating whatever was there — write the header, then loop over the in-memory
sequence writing one row per record. -/
def write_results_csv (results : List ResultRecord) : List (List String) :=
  results.foldl (fun acc r => acc ++ [rowOf r]) [CSV_HEADER]

/-- A JSON value as far as the final `results.json` dump needs. -/
inductive JVal where
  | str (s : String)
  | int (i : Int)
  | num (q : ℚ)
  | null
  deriving DecidableEq, Repr

/-- The JSON object serialized for one record (same keys and order as the dict). -/
def jsonOfRecord (r : ResultRecord) : List (String × JVal) :=
  [("algorithm", .str r.algorithm), ("category", .str r.category),
    ("file", .str r.file),
    ("n", match r.n with | none => .null | some k => .int k),
    ("m", match r.m with | none => .null | some k => .int k),
    ("time", match r.time with | none => .null | some t => .num t),
    ("exitcode", match r.exitcode with
      | .code c => .int c
      | .timeout => .str "timeout"
      | .error => .str "error"),
    ("output", .str r.output)]

/-- Lines 260-262: `json.dump(results, ...)` — the whole in-memory sequence, in
order. -/
def write_results_json (results : List ResultRecord) : List (List (String × JVal)) :=
  results.map jsonOfRecord

/-! ## Corpus discovery (`scripts/run_all.py` lines 42-49, `run_p1_only.py` lines 35-42) -/

/-- A directory entry of the dataset root as discovery sees it. -/
structure DirEntry where
  name : String
  isDir : Bool
  files : List String
  deriving DecidableEq, Repr

/-- Lexicographic (code-point) comparison of character lists — the order Python's
`sorted` applies to the names involved (`Path` objects with a common parent
compare by their final component; strings compare by code points). -/
def charListLe : List Char → List Char → Bool
  | [], _ => true
  | _ :: _, [] => false
  | a :: as, b :: bs => if a = b then charListLe as bs else decide (a < b)

/-- Code-point comparison of strings. -/
def strLe (a b : String) : Bool := charListLe a.toList b.toList

/-- Strict code-point comparison of strings. -/
def strLt (a b : String) : Bool := strLe a b && !(a == b)

/-- Function `discover_dataset_files`: iterate the root's entries in sorted order, keep the
directories, and within each list its `*.txt` files in sorted order, tagged with
the category (= directory) name. -/
def discover_dataset_files (entries : List DirEntry) : List (String × String) :=
  ((entries.insertionSort fun a b => strLe a.name b.name = true).filter
      (fun d => d.isDir)).flatMap
    fun d =>
      (((d.files.filter fun f => ".txt".toList.isSuffixOf f.toList).insertionSort
          fun a b => strLe a b = true).map
        fun f => (d.name, f))

/-- The order the spec prescribes on discovered pairs: by category name first,
then by file name. -/
def pairLe (a b : String × String) : Prop :=
  strLt a.1 b.1 = true ∨ (a.1 = b.1 ∧ strLe a.2 b.2 = true)

/-! ## Resource-usage report parsing (`scripts/create_memory_cache_graphs.py`, lines 30-98)

`re.split(r'Algorithm: (p\d)', content)` and `re.split(r'Test: (\w+)', section)`
are modelled as left-to-right scanners: the Python loops
`for i in range(1, len(parts), 2)` consume exactly the (captured group, following
segment) pairs, which is what `algoSections` / `testBlocks` produce.  `\d` and
`\w` are modelled on their ASCII fragment. -/

/-- Class `\w`: word characters (ASCII fragment). -/
def isWordChar (c : Char) : Bool := c.isAlphanum || c = '_'

def ALGO_LIT : List Char := "Algorithm: p".toList

/-- Match of `Algorithm: (p\d)` anchored at the head of `s`: the captured group
(`p` plus one digit) and the text after the match. -/
def algoMatchAt (s : List Char) : Option (List Char × List Char) :=
  if ALGO_LIT.isPrefixOf s then
    match s.drop 12 with
    | d :: rest => if d.isDigit then some (['p', d], rest) else none
    | [] => none
  else none

/-- Leftmost match of `Algorithm: (p\d)` in `s`: text before the match, the
captured group, and the text after the match. -/
def findAlgo : List Char → Option (List Char × List Char × List Char)
  | [] => none
  | c :: cs =>
    match algoMatchAt (c :: cs) with
    | some (cap, rest) => some ([], cap, rest)
    | none => (findAlgo cs).map fun x => (c :: x.1, x.2.1, x.2.2)

/-- Pair each captured algorithm id with the segment extending to the next match
(or to the end). The fuel starts at the text length; every match consumes at
least one character, so it never runs out before the text does. -/
def algoSectionsAux : Nat → List Char → List Char → List (List Char × List Char)
  | 0, cap, rest => [(cap, rest)]
  | fuel + 1, cap, rest =>
    match findAlgo rest with
    | none => [(cap, rest)]
    | some (p, cap2, rest2) => (cap, p) :: algoSectionsAux fuel cap2 rest2

/-- The (algorithm id, section) pairs the loop at lines 48-50 consumes. -/
def algoSections (s : List Char) : List (List Char × List Char) :=
  match findAlgo s with
  | none => []
  | some (_, cap, rest) => algoSectionsAux rest.length cap rest

def TEST_LIT : List Char := "Test: ".toList

/-- Match of `Test: (\w+)` anchored at the head of `s`: the greedily captured
word and the text after it. -/
def testMatchAt (s : List Char) : Option (List Char × List Char) :=
  if TEST_LIT.isPrefixOf s then
    let t := s.drop 6
    let w := t.takeWhile isWordChar
    if w.isEmpty then none else some (w, t.dropWhile isWordChar)
  else none

/-- Leftmost match of `Test: (\w+)` in `s`. -/
def findTest : List Char → Option (List Char × List Char × List Char)
  | [] => none
  | c :: cs =>
    match testMatchAt (c :: cs) with
    | some (cap, rest) => some ([], cap, rest)
    | none => (findTest cs).map fun x => (c :: x.1, x.2.1, x.2.2)

def testBlocksAux : Nat → List Char → List Char → List (List Char × List Char)
  | 0, cap, rest => [(cap, rest)]
  | fuel + 1, cap, rest =>
    match findTest rest with
    | none => [(cap, rest)]
    | some (p, cap2, rest2) => (cap, p) :: testBlocksAux fuel cap2 rest2

/-- The (test name, test data) pairs the loop at lines 55-57 consumes. -/
def testBlocks (s : List Char) : List (List Char × List Char) :=
  match findTest s with
  | none => []
  | some (_, cap, rest) => testBlocksAux rest.length cap rest

def MEM_LIT : List Char := "Maximum resident set size (kbytes): ".toList

/-- Match of the memory pattern anchored at the head of `s`: the greedily
captured digit run, requiring at least one digit. -/
def memMatchAt (s : List Char) : Option Nat :=
  if MEM_LIT.isPrefixOf s then
    let ds := (s.drop 36).takeWhile fun c => c.isDigit
    if ds.isEmpty then none else some (digitsToNat ds)
  else none

/-- Search `re.search(r'Maximum resident set size \(kbytes\): (\d+)', test_data)`:
leftmost match, as an integer. -/
def memSearch : List Char → Option Nat
  | [] => none
  | c :: cs =>
    match memMatchAt (c :: cs) with
    | some k => some k
    | none => memSearch cs

/-- The test-name → category rules of lines 66-81, in source order: the six name
prefixes first, then the real-world keywords, else no category. -/
def categoryOf (t : List Char) : Option (List Char) :=
  if "dense".toList.isPrefixOf t then some "dense".toList
  else if "sparse".toList.isPrefixOf t then some "sparse".toList
  else if "small".toList.isPrefixOf t then some "small".toList
  else if "large".toList.isPrefixOf t then some "large".toList
  else if "tree".toList.isPrefixOf t then some "tree_like".toList
  else if "highly".toList.isPrefixOf t then some "highly_connected".toList
  else if containsSub "road".toList t || containsSub "com".toList t ||
      containsSub "wiki".toList t || containsSub "soc".toList t ||
      containsSub "web".toList t then some "real_world".toList
  else none

/-- One parsed memory entry (the dict appended at lines 84-90; its derived
`memory_mb = memory_kb / 1024.0` float, used only for plotting, is not
modelled). -/
structure MemRecord where
  algorithm : List Char
  test : List Char
  category : List Char
  memory_kb : Nat
  deriving DecidableEq, Repr

/-- Lines 59-90 for one test block: a record is appended only when the memory
pattern matches the block and the test name classifies into a category. -/
def blockRecord (algo test data : List Char) : Option MemRecord :=
  match memSearch data with
  | none => none
  | some kb =>
    match categoryOf test with
    | none => none
    | some cat => some ⟨algo, test, cat, kb⟩

/-- Function `parse_performance_metrics` on the report's text: all records, grouped by
algorithm section and test block in report order. -/
def parse_performance_metrics (content : List Char) : List MemRecord :=
  (algoSections content).flatMap fun s =>
    (testBlocks s.2).filterMap fun b => blockRecord s.1 b.1 b.2

/-- The diagnostic printed when the report file is missing (line 35; the absolute
path prefix of the printed name is elided). -/
def FNF_DIAGNOSTIC : String := "Error: performance_metrics.txt not found!"

/-- Function `parse_performance_metrics` including its file handling (lines 32-37 and
92-98): the report file's content is passed as `none` when the file does not
exist.  Returns the parsed data (`none` both for a missing file and for a report
yielding no entries, as the source returns `None` in both cases) together with
the diagnostics printed. -/
def parse_performance_metrics_file (file : Option (List Char)) :
    Option (List MemRecord) × List String :=
  match file with
  | none => (none, [FNF_DIAGNOSTIC])
  | some content =>
    let d := parse_performance_metrics content
    if d.isEmpty then (none, ["No memory data found!"])
    else (some d, ["Parsed memory data"])

/-! ## Helper lemmas -/

/-- The batch loop appends exactly one record per (algorithm, file) pair,
whatever each child process does. -/
theorem runBatch_length (exes : List String) (files : List GraphFileInfo)
    (oracle : String → GraphFileInfo → ProcOutcome) :
    (runBatch exes files oracle).length = exes.length * files.length := by
  induction exes with
  | nil => simp [runBatch]
  | cons e es ih =>
    simp [runBatch] at ih ⊢
    rw [ih, Nat.succ_mul, Nat.add_comm]

/-- Every branch of the driver stamps the record with the pair's key. -/
theorem keyOf_runOne (exe : String) (g : GraphFileInfo) (oc : ProcOutcome) :
    keyOf (runOne exe g oc).1 = (exe, relOf g) := by
  cases oc <;> rfl

/-- The CSV writer's loop, run from any already-written prefix. -/
theorem foldl_rows (l : List ResultRecord) (acc : List (List String)) :
    l.foldl (fun acc r => acc ++ [rowOf r]) acc = acc ++ l.map rowOf := by
  induction l generalizing acc with
  | nil => simp
  | cons r rs ih => simp [ih]

/-- A line with no marker, or with fewer than eleven qualifying integers,
contributes nothing. -/
theorem lineMetrics_eq_none {l : List Char}
    (h : containsSub PROGRAM_TOTALS l = false ∨
      (extractNumbers (pySplitWs l)).length < 11) :
    lineMetrics l = none := by
  rcases h with h | h
  · simp [lineMetrics, h]
  · have h' : ¬ 11 ≤ (extractNumbers (pySplitWs l)).length := by omega
    simp [lineMetrics, h']

/-! ## C1: timeout handling -/

/-- C1: an execution whose child process does not exit within the 600-second
timeout yields a record with the `timeout` status and no elapsed time, and the
persisted output artifact is exactly the fixed `TIMEOUT` sentinel — independent
of whatever partial output the killed process produced. -/
theorem c1_timeout_record (exe : String) (g : GraphFileInfo) (pOut q : String) :
    (runOne exe g (.timedOut pOut)).1.exitcode = .timeout ∧
    (runOne exe g (.timedOut pOut)).1.time = none ∧
    (runOne exe g (.timedOut pOut)).2 = TIMEOUT_SENTINEL ∧
    TIMEOUT_SENTINEL = "TIMEOUT\n" ∧
    TIMEOUT_SECONDS = 600 ∧
    (runOne exe g (.timedOut pOut)).2 = (runOne exe g (.timedOut q)).2 :=
  ⟨rfl, rfl, rfl, rfl, rfl, rfl⟩

/-! ## C2: non-timeout failures never escape the driver -/

/-- C2: a non-timeout failure in launching or communicating with the child
process is converted into a record with the `error` status, no elapsed time, and
the error message written as the output artifact; the driver is a total function
of the outcome, so the batch loop still produces exactly one record for every
(algorithm, file) pair no matter which outcomes occur. -/
theorem c2_error_record (exe : String) (g : GraphFileInfo) (msg : String)
    (exes : List String) (files : List GraphFileInfo)
    (oracle : String → GraphFileInfo → ProcOutcome) :
    (runOne exe g (.failed msg)).1.exitcode = .error ∧
    (runOne exe g (.failed msg)).1.time = none ∧
    (runOne exe g (.failed msg)).2 = "ERROR: " ++ msg ++ "\n" ∧
    (runBatch exes files oracle).length = exes.length * files.length :=
  ⟨rfl, rfl, rfl, runBatch_length exes files oracle⟩

/-! ## C4: ledger rewrite semantics -/

/-- C4: after each append the persisted table is rewritten from the whole
in-memory sequence: it is exactly the fixed header row followed by one complete
row per record in append order (position `i + 1` holds the row of record `i`),
and the final JSON dump serializes the same sequence, record for record. -/
theorem c4_ledger_rewrite (results : List ResultRecord) (r : ResultRecord) (i : Nat) :
    write_results_csv results = CSV_HEADER :: results.map rowOf ∧
    write_results_csv (results ++ [r]) =
      CSV_HEADER :: (results.map rowOf ++ [rowOf r]) ∧
    (write_results_csv results).getD 0 [] = CSV_HEADER ∧
    (write_results_csv results).getD (i + 1) [] = (results.map rowOf).getD i [] ∧
    write_results_json results = results.map jsonOfRecord ∧
    (write_results_json results).length = results.length := by
  have h := foldl_rows results [CSV_HEADER]
  have h2 := foldl_rows (results ++ [r]) [CSV_HEADER]
  refine ⟨by simpa [write_results_csv] using h,
    by simpa [write_results_csv] using h2, ?_, ?_, rfl, by simp [write_results_json]⟩
  · rw [write_results_csv, h]; rfl
  · rw [write_results_csv, h]; rfl

/-! ## C9: missing resource report -/

/-- C9: when the resource-usage report file does not exist the parser neither
raises nor produces records: it returns the no-data result (zero records) plus a
diagnostic message. -/
theorem c9_missing_report :
    parse_performance_metrics_file none = (none, [FNF_DIAGNOSTIC]) ∧
    ((parse_performance_metrics_file none).1.getD []).length = 0 ∧
    (parse_performance_metrics_file none).2 ≠ [] :=
  ⟨rfl, rfl, by decide⟩

/-! ## C3: profiler report parsing (corrected) -/

/-- C3 counterexample: the source only checks that the token after an integer
starts with `(` and ends with `%)`; it does not require the
`(<digits>.<digits>%)` shape the claim states.  On this line the token `(zz%)`
makes the leading `99` qualify for the source, so the parsed `Ir` field is `99`
while the claim — whose qualifying integers are `1`..`11` — prescribes `1`. -/
theorem c3_counterexample :
    parse_cachegrind_output
        ("99 (zz%) 1 (11.1%) 2 (11.1%) 3 (11.1%) 4 (11.1%) 5 (11.1%) 6 (11.1%) 7 (11.1%) 8 (11.1%) 9 (11.1%) 10 (11.1%) 11 (11.1%) PROGRAM TOTALS").toList
      = some (mkMetrics [99, 1, 2, 3, 4, 5, 6, 7, 8, 9, 10, 11]) ∧
    strictNumbers (pySplitWs
        ("99 (zz%) 1 (11.1%) 2 (11.1%) 3 (11.1%) 4 (11.1%) 5 (11.1%) 6 (11.1%) 7 (11.1%) 8 (11.1%) 9 (11.1%) 10 (11.1%) 11 (11.1%) PROGRAM TOTALS").toList)
      = [1, 2, 3, 4, 5, 6, 7, 8, 9, 10, 11] ∧
    parse_cachegrind_output
        ("99 (zz%) 1 (11.1%) 2 (11.1%) 3 (11.1%) 4 (11.1%) 5 (11.1%) 6 (11.1%) 7 (11.1%) 8 (11.1%) 9 (11.1%) 10 (11.1%) 11 (11.1%) PROGRAM TOTALS").toList
      ≠ some (mkMetrics [1, 2, 3, 4, 5, 6, 7, 8, 9, 10, 11]) := by
  refine ⟨by decide, by decide, by decide⟩

/-- C3 (amended): an integer token qualifies when the next token starts with `(`
and ends with `%)` (the interior is not inspected).  `parse` returns the metrics
of the first `PROGRAM TOTALS` line carrying at least eleven qualifying integers,
its eleven fields being the first eleven such integers in declared order; when
every marker line has fewer than eleven qualifying integers — in particular when
no marker line exists — `parse` returns `None`. -/
theorem c3_loose_qualification (out : List Char) (pre post : List (List Char))
    (line : List Char) :
    ((∀ l ∈ pySplitChar '\n' out,
        containsSub PROGRAM_TOTALS l = false ∨
          (extractNumbers (pySplitWs l)).length < 11) →
      parse_cachegrind_output out = none) ∧
    (pySplitChar '\n' out = pre ++ line :: post →
      (∀ l ∈ pre,
        containsSub PROGRAM_TOTALS l = false ∨
          (extractNumbers (pySplitWs l)).length < 11) →
      containsSub PROGRAM_TOTALS line = true →
      11 ≤ (extractNumbers (pySplitWs line)).length →
      parse_cachegrind_output out = some (mkMetrics (extractNumbers (pySplitWs line)))) := by
  constructor
  · intro h
    rw [parse_cachegrind_output]
    exact List.findSome?_eq_none_iff.mpr fun l hl => lineMetrics_eq_none (h l hl)
  · intro hsplit hpre hmark hlen
    rw [parse_cachegrind_output, hsplit, List.findSome?_append]
    have h1 : (pre.findSome? lineMetrics) = none :=
      List.findSome?_eq_none_iff.mpr fun l hl => lineMetrics_eq_none (hpre l hl)
    have h2 : lineMetrics line = some (mkMetrics (extractNumbers (pySplitWs line))) := by
      simp [lineMetrics, hmark, hlen]
    rw [h1, List.findSome?_cons, h2]
    rfl

/-- Witness for C3 (amended): a report whose marker line has eleven loosely
qualifying integers parses to those integers in order, and a report whose marker
line has only nine qualifying integers parses to `None`. -/
theorem c3_loose_qualification_witness :
    parse_cachegrind_output
        ("1 (1.0%) 2 (1.0%) 3 (1.0%) 4 (1.0%) 5 (1.0%) 6 (1.0%) 7 (1.0%) 8 (1.0%) 9 (1.0%) 10 (1.0%) 11 (1.0%) PROGRAM TOTALS").toList
      = some (mkMetrics (extractNumbers (pySplitWs
          ("1 (1.0%) 2 (1.0%) 3 (1.0%) 4 (1.0%) 5 (1.0%) 6 (1.0%) 7 (1.0%) 8 (1.0%) 9 (1.0%) 10 (1.0%) 11 (1.0%) PROGRAM TOTALS").toList))) ∧
    parse_cachegrind_output
        ("1 (1.0%) 2 (1.0%) 3 (1.0%) 4 (1.0%) 5 (1.0%) 6 (1.0%) 7 (1.0%) 8 (1.0%) 9 (1.0%) PROGRAM TOTALS").toList
      = none :=
  ⟨(c3_loose_qualification
        ("1 (1.0%) 2 (1.0%) 3 (1.0%) 4 (1.0%) 5 (1.0%) 6 (1.0%) 7 (1.0%) 8 (1.0%) 9 (1.0%) 10 (1.0%) 11 (1.0%) PROGRAM TOTALS").toList
        [] []
        ("1 (1.0%) 2 (1.0%) 3 (1.0%) 4 (1.0%) 5 (1.0%) 6 (1.0%) 7 (1.0%) 8 (1.0%) 9 (1.0%) 10 (1.0%) 11 (1.0%) PROGRAM TOTALS").toList).2
      (by decide) (by decide) (by decide) (by decide),
    (c3_loose_qualification
        ("1 (1.0%) 2 (1.0%) 3 (1.0%) 4 (1.0%) 5 (1.0%) 6 (1.0%) 7 (1.0%) 8 (1.0%) 9 (1.0%) PROGRAM TOTALS").toList
        [] [] []).1 (by decide)⟩

/-! ## C8: resource report grouping -/

/-- C8: a report that segments into one `Algorithm:` section holding one `Test:`
block whose data matches the peak-memory pattern, and whose test name classifies
into a category, yields exactly one MemoryRecord carrying that algorithm id,
test name, derived category and parsed peak-memory integer. -/
theorem c8_resource_grouping (content algo sec w data cat : List Char) (kb : Nat)
    (h1 : algoSections content = [(algo, sec)])
    (h2 : testBlocks sec = [(w, data)])
    (h3 : memSearch data = some kb)
    (h4 : categoryOf w = some cat) :
    parse_performance_metrics content = [⟨algo, w, cat, kb⟩] := by
  simp [parse_performance_metrics, h1, h2, blockRecord, h3, h4]

/-- Witness for C8: the spec's synthetic report
`Algorithm: p1` / `Test: dense_03` / `Maximum resident set size (kbytes): 2048`
yields exactly one record `(p1, dense_03, dense, 2048)`. -/
theorem c8_resource_grouping_witness :
    parse_performance_metrics
        ("Algorithm: p1\nTest: dense_03\nMaximum resident set size (kbytes): 2048\n").toList
      = [⟨"p1".toList, "dense_03".toList, "dense".toList, 2048⟩] :=
  c8_resource_grouping
    ("Algorithm: p1\nTest: dense_03\nMaximum resident set size (kbytes): 2048\n").toList
    "p1".toList ("\nTest: dense_03\nMaximum resident set size (kbytes): 2048\n").toList
    "dense_03".toList ("\nMaximum resident set size (kbytes): 2048\n").toList
    "dense".toList 2048 (by decide) (by decide) (by decide) (by decide)

/-! ## C10: category classification priority -/

/-- C10: the classification rules apply in fixed priority order — the six name
prefixes first, each forcing its own category; `real_world` is assigned exactly
when no prefix matches and a real-world keyword occurs; and a test name matching
no rule contributes no MemoryRecord at all. -/
theorem c10_category_priority (t algo data : List Char) :
    ("dense".toList.isPrefixOf t = true → categoryOf t = some "dense".toList) ∧
    ("sparse".toList.isPrefixOf t = true → categoryOf t = some "sparse".toList) ∧
    ("small".toList.isPrefixOf t = true → categoryOf t = some "small".toList) ∧
    ("large".toList.isPrefixOf t = true → categoryOf t = some "large".toList) ∧
    ("tree".toList.isPrefixOf t = true → categoryOf t = some "tree_like".toList) ∧
    ("highly".toList.isPrefixOf t = true →
      categoryOf t = some "highly_connected".toList) ∧
    (categoryOf t = some "real_world".toList →
      ¬ "dense".toList.isPrefixOf t = true ∧ ¬ "sparse".toList.isPrefixOf t = true ∧
      ¬ "small".toList.isPrefixOf t = true ∧ ¬ "large".toList.isPrefixOf t = true ∧
      ¬ "tree".toList.isPrefixOf t = true ∧ ¬ "highly".toList.isPrefixOf t = true ∧
      (containsSub "road".toList t || containsSub "com".toList t ||
        containsSub "wiki".toList t || containsSub "soc".toList t ||
        containsSub "web".toList t) = true) ∧
    (categoryOf t = none → blockRecord algo t data = none) := by
  refine ⟨?_, ?_, ?_, ?_, ?_, ?_, ?_, ?_⟩
  · intro h
    obtain ⟨rest, rfl⟩ := List.isPrefixOf_iff_prefix.mp h
    have h1 : "dense".toList.isPrefixOf ("dense".toList ++ rest) = true :=
      List.isPrefixOf_iff_prefix.mpr ⟨rest, rfl⟩
    simp [categoryOf, h1]
  · intro h
    obtain ⟨rest, rfl⟩ := List.isPrefixOf_iff_prefix.mp h
    have h1 : "dense".toList.isPrefixOf ("sparse".toList ++ rest) = false := rfl
    have h2 : "sparse".toList.isPrefixOf ("sparse".toList ++ rest) = true :=
      List.isPrefixOf_iff_prefix.mpr ⟨rest, rfl⟩
    simp [categoryOf, h1, h2]
  · intro h
    obtain ⟨rest, rfl⟩ := List.isPrefixOf_iff_prefix.mp h
    have h1 : "dense".toList.isPrefixOf ("small".toList ++ rest) = false := rfl
    have h2 : "sparse".toList.isPrefixOf ("small".toList ++ rest) = false := rfl
    have h3 : "small".toList.isPrefixOf ("small".toList ++ rest) = true :=
      List.isPrefixOf_iff_prefix.mpr ⟨rest, rfl⟩
    simp [categoryOf, h1, h2, h3]
  · intro h
    obtain ⟨rest, rfl⟩ := List.isPrefixOf_iff_prefix.mp h
    have h1 : "dense".toList.isPrefixOf ("large".toList ++ rest) = false := rfl
    have h2 : "sparse".toList.isPrefixOf ("large".toList ++ rest) = false := rfl
    have h3 : "small".toList.isPrefixOf ("large".toList ++ rest) = false := rfl
    have h4 : "large".toList.isPrefixOf ("large".toList ++ rest) = true :=
      List.isPrefixOf_iff_prefix.mpr ⟨rest, rfl⟩
    simp [categoryOf, h1, h2, h3, h4]
  · intro h
    obtain ⟨rest, rfl⟩ := List.isPrefixOf_iff_prefix.mp h
    have h1 : "dense".toList.isPrefixOf ("tree".toList ++ rest) = false := rfl
    have h2 : "sparse".toList.isPrefixOf ("tree".toList ++ rest) = false := rfl
    have h3 : "small".toList.isPrefixOf ("tree".toList ++ rest) = false := rfl
    have h4 : "large".toList.isPrefixOf ("tree".toList ++ rest) = false := rfl
    have h5 : "tree".toList.isPrefixOf ("tree".toList ++ rest) = true :=
      List.isPrefixOf_iff_prefix.mpr ⟨rest, rfl⟩
    simp [categoryOf, h1, h2, h3, h4, h5]
  · intro h
    obtain ⟨rest, rfl⟩ := List.isPrefixOf_iff_prefix.mp h
    have h1 : "dense".toList.isPrefixOf ("highly".toList ++ rest) = false := rfl
    have h2 : "sparse".toList.isPrefixOf ("highly".toList ++ rest) = false := rfl
    have h3 : "small".toList.isPrefixOf ("highly".toList ++ rest) = false := rfl
    have h4 : "large".toList.isPrefixOf ("highly".toList ++ rest) = false := rfl
    have h5 : "tree".toList.isPrefixOf ("highly".toList ++ rest) = false := rfl
    have h6 : "highly".toList.isPrefixOf ("highly".toList ++ rest) = true :=
      List.isPrefixOf_iff_prefix.mpr ⟨rest, rfl⟩
    simp [categoryOf, h1, h2, h3, h4, h5, h6]
  · intro h
    unfold categoryOf at h
    split at h
    · exact absurd (Option.some.inj h) (by decide)
    · split at h
      · exact absurd (Option.some.inj h) (by decide)
      · split at h
        · exact absurd (Option.some.inj h) (by decide)
        · split at h
          · exact absurd (Option.some.inj h) (by decide)
          · split at h
            · exact absurd (Option.some.inj h) (by decide)
            · split at h
              · exact absurd (Option.some.inj h) (by decide)
              · split at h
                · exact ⟨by assumption, by assumption, by assumption,
                    by assumption, by assumption, by assumption, by assumption⟩
                · exact absurd h (by simp)
  · intro h
    unfold blockRecord
    cases hm : memSearch data with
    | none => rfl
    | some kb => rw [h]

/-- Witness for C10: a name with the `dense` prefix is classified `dense` even
though it contains the real-world keyword `road`, and a block whose test name
matches no rule is dropped. -/
theorem c10_category_priority_witness :
    categoryOf "dense_road".toList = some "dense".toList ∧
    blockRecord "p1".toList "zzz_01".toList
        ("Maximum resident set size (kbytes): 5\n").toList = none :=
  ⟨(c10_category_priority "dense_road".toList [] []).1 (by decide),
    (c10_category_priority "zzz_01".toList "p1".toList
        ("Maximum resident set size (kbytes): 5\n").toList).2.2.2.2.2.2.2
      (by decide)⟩

/-! ## C5: graph-file header reading (corrected) -/

/-- C5 counterexample: for the file `x y` / `0 1` / `1 2` the first (non-comment)
line is a malformed header, yet `run_all.py`'s reader does not record `None`
counts: it falls back to inferring `n = 3` (one more than the largest endpoint)
and `m = 2` (the number of parseable edge lines) — unlike the claim's prescribed
`(None, None)`. -/
theorem c5_counterexample :
    read_header_and_edges ["x y".toList, "0 1".toList, "1 2".toList]
      = (3, 2, [(0, 1), (1, 2)]) ∧
    spec_header_counts ["x y".toList, "0 1".toList, "1 2".toList] = (none, none) ∧
    ((some 3 : Option Int), (some 2 : Option Int))
      ≠ ((none : Option Int), (none : Option Int)) := by
  refine ⟨by decide, by decide, by decide⟩

/-- C5 (amended): `run_all.py` reads the counts from the literal first line of
the file — comment or not — whenever its first two whitespace tokens parse as
integers; otherwise it infers them from the parseable edge lines of the whole
file (`n` = one more than the largest endpoint, `m` = the number of parsed
edges, and `0, 0` for a file with no parseable edge), never `None`.
`run_p1_only.py` scans for the first non-blank, non-comment line with at least
two tokens, and yields `None` for both counts when a leading token of that line
fails integer conversion.  In both drivers the reader is a total function of the
file's lines, so a broken header cannot abort discovery of the remaining
corpus. -/
theorem c5_header_semantics (lines pre rest : List (List Char)) (l : List Char)
    (n m : Int) :
    (headerParse lines = some (n, m) →
      read_header_and_edges lines = (n, m, gen_from_file lines.tail)) ∧
    (headerParse lines = none →
      read_header_and_edges lines =
        match gen_from_file lines with
        | [] => (0, 0, [])
        | e :: es =>
          (es.foldl (fun a uv => max a (max uv.1 uv.2)) (max e.1 e.2) + 1,
            ((e :: es).length : Int), e :: es)) ∧
    (lines = pre ++ l :: rest →
      (∀ x ∈ pre, p1Qual x = false) →
      p1Qual l = true →
      (pyInt ((pySplitWs (pyStrip l)).getD 0 []) = none ∨
        pyInt ((pySplitWs (pyStrip l)).getD 1 []) = none) →
      p1_read_nm lines = .noneCounts) := by
  refine ⟨?_, ?_, ?_⟩
  · intro h
    rw [read_header_and_edges, h]
  · intro h
    rw [read_header_and_edges, h]
  · intro hsplit hpre hqual hbad
    subst hsplit
    induction pre with
    | nil =>
      rw [List.nil_append, p1_read_nm]
      simp only [hqual, if_true]
      rcases hbad with hb | hb
      · rw [hb]
      · cases h0 : pyInt ((pySplitWs (pyStrip l)).getD 0 []) <;> rw [hb]
    | cons x xs ih =>
      rw [List.cons_append, p1_read_nm]
      have hx : p1Qual x = false := hpre x (by simp)
      rw [hx]
      simp only [Bool.false_eq_true, if_false]
      exact ih fun y hy => hpre y (by simp [hy])

/-- Witness for C5 (amended): a well-formed header is taken verbatim, and a
qualifying line with a non-integer token makes `run_p1_only.py` record
`(None, None)`. -/
theorem c5_header_semantics_witness :
    read_header_and_edges ["3 5".toList, "0 1".toList]
      = (3, 5, gen_from_file ["0 1".toList]) ∧
    p1_read_nm ["# c".toList, "7 x 9".toList] = .noneCounts :=
  ⟨(c5_header_semantics ["3 5".toList, "0 1".toList] [] [] [] 3 5).1 (by decide),
    (c5_header_semantics ["# c".toList, "7 x 9".toList] ["# c".toList] []
        "7 x 9".toList 0 0).2.2 rfl (by decide) (by decide)
      (Or.inr (by decide))⟩

/-! ## C6: discovery is sorted and deterministic -/

/-- Code-point comparison is total. -/
theorem charListLe_total : ∀ a b : List Char,
    charListLe a b = true ∨ charListLe b a = true
  | [], _ => Or.inl rfl
  | _ :: _, [] => Or.inr rfl
  | a :: as, b :: bs => by
    by_cases hab : a = b
    · subst hab
      rcases charListLe_total as bs with h | h
      · left; simp [charListLe, h]
      · right; simp [charListLe, h]
    · rcases lt_or_gt_of_ne hab with h | h
      · left; simp [charListLe, hab, h]
      · right
        have hba : ¬ b = a := fun e => hab e.symm
        simp [charListLe, hba, h]

/-- Code-point comparison is transitive. -/
theorem charListLe_trans : ∀ a b c : List Char,
    charListLe a b = true → charListLe b c = true → charListLe a c = true
  | [], _, _, _, _ => rfl
  | _ :: _, [], _, h, _ => by simp [charListLe] at h
  | _ :: _, _ :: _, [], _, h => by simp [charListLe] at h
  | a :: as, b :: bs, c :: cs, h1, h2 => by
    by_cases hab : a = b
    · subst hab
      by_cases hac : a = c
      · subst hac
        simp only [charListLe, if_pos rfl] at h1 h2 ⊢
        exact charListLe_trans as bs cs h1 h2
      · simp only [charListLe, if_pos rfl] at h1
        simp only [charListLe, if_neg hac] at h2 ⊢
        exact h2
    · by_cases hbc : b = c
      · subst hbc
        simp only [charListLe, if_neg hab] at h1 ⊢
        exact h1
      · simp only [charListLe, if_neg hab] at h1
        simp only [charListLe, if_neg hbc] at h2
        have h1' : a < b := of_decide_eq_true h1
        have h2' : b < c := of_decide_eq_true h2
        have hac : a < c := lt_trans h1' h2'
        simp only [charListLe, if_neg (ne_of_lt hac)]
        exact decide_eq_true hac

/-- C6: on any directory snapshot (with the file system's guarantee that entry
names are distinct), discovery returns pairs sorted by category name first and
file name second, and — being a pure function of the snapshot — calling it twice
yields identical sequences. -/
theorem c6_discovery_sorted (entries : List DirEntry)
    (h : (entries.map DirEntry.name).Nodup) :
    List.Pairwise pairLe (discover_dataset_files entries) ∧
    discover_dataset_files entries = discover_dataset_files entries := by
  refine ⟨?_, rfl⟩
  have ht : IsTotal DirEntry (fun a b => strLe a.name b.name = true) :=
    ⟨fun a b => charListLe_total a.name.toList b.name.toList⟩
  have htr : IsTrans DirEntry (fun a b => strLe a.name b.name = true) :=
    ⟨fun a b c => charListLe_trans a.name.toList b.name.toList c.name.toList⟩
  have hts : IsTotal String (fun a b => strLe a b = true) :=
    ⟨fun a b => charListLe_total a.toList b.toList⟩
  have htrs : IsTrans String (fun a b => strLe a b = true) :=
    ⟨fun a b c => charListLe_trans a.toList b.toList c.toList⟩
  have hsorted : List.Pairwise (fun a b : DirEntry => strLe a.name b.name = true)
      (entries.insertionSort fun a b => strLe a.name b.name = true) :=
    @List.sorted_insertionSort DirEntry _
      (fun a b => instDecidableEqBool (strLe a.name b.name) true) ht htr entries
  have hperm :
      (entries.insertionSort fun a b => strLe a.name b.name = true).Perm entries :=
    List.perm_insertionSort _ entries
  have hnames :
      ((entries.insertionSort fun a b => strLe a.name b.name = true).map
        DirEntry.name).Nodup :=
    h.perm (hperm.map DirEntry.name).symm
  have hdsle : List.Pairwise (fun a b : DirEntry => strLe a.name b.name = true)
      (((entries.insertionSort fun a b => strLe a.name b.name = true)).filter
        (fun d => d.isDir)) :=
    List.Pairwise.sublist (List.filter_sublist _) hsorted
  have hdsnames :
      ((((entries.insertionSort fun a b => strLe a.name b.name = true)).filter
        (fun d => d.isDir)).map DirEntry.name).Nodup :=
    List.Nodup.sublist (List.Sublist.map DirEntry.name (List.filter_sublist _)) hnames
  have hdsne : List.Pairwise (fun a b : DirEntry => a.name ≠ b.name)
      (((entries.insertionSort fun a b => strLe a.name b.name = true)).filter
        (fun d => d.isDir)) :=
    List.pairwise_map.mp hdsnames
  have hdslt : List.Pairwise (fun a b : DirEntry => strLt a.name b.name = true)
      (((entries.insertionSort fun a b => strLe a.name b.name = true)).filter
        (fun d => d.isDir)) := by
    refine (hdsle.and hdsne).imp ?_
    rintro a b ⟨hle, hne⟩
    simp [strLt, hle, hne]
  unfold discover_dataset_files
  rw [List.pairwise_flatMap]
  constructor
  · intro d _
    rw [List.pairwise_map]
    have hfs : List.Pairwise (fun a b : String => strLe a b = true)
        ((d.files.filter fun f => ".txt".toList.isSuffixOf f.toList).insertionSort
          fun a b => strLe a b = true) :=
      @List.sorted_insertionSort String _
        (fun a b => instDecidableEqBool (strLe a b) true) hts htrs _
    exact hfs.imp fun hle => Or.inr ⟨rfl, hle⟩
  · refine hdslt.imp ?_
    intro a b hab x hx y hy
    obtain ⟨f1, _, rfl⟩ := List.mem_map.mp hx
    obtain ⟨f2, _, rfl⟩ := List.mem_map.mp hy
    exact Or.inl hab

/-- Witness for C6: a concrete two-category snapshot is discovered in sorted
order twice identically. -/
theorem c6_discovery_sorted_witness :
    List.Pairwise pairLe (discover_dataset_files
      [⟨"b", true, ["y.txt", "x.txt"]⟩, ⟨"a", true, ["z.txt", "n.md"]⟩]) ∧
    discover_dataset_files
        [⟨"b", true, ["y.txt", "x.txt"]⟩, ⟨"a", true, ["z.txt", "n.md"]⟩]
      = discover_dataset_files
        [⟨"b", true, ["y.txt", "x.txt"]⟩, ⟨"a", true, ["z.txt", "n.md"]⟩] :=
  c6_discovery_sorted
    [⟨"b", true, ["y.txt", "x.txt"]⟩, ⟨"a", true, ["z.txt", "n.md"]⟩] (by decide)

/-! ## C7: batch coverage -/

/-- The key sequence of a batch run is the (algorithm, file) product in loop
order. -/
theorem runBatch_keys (exes : List String) (files : List GraphFileInfo)
    (oracle : String → GraphFileInfo → ProcOutcome) :
    (runBatch exes files oracle).map keyOf
      = exes.flatMap fun e => files.map fun g => (e, relOf g) := by
  rw [runBatch, List.map_flatMap]
  refine congrArg (List.flatMap exes) (funext fun e => ?_)
  rw [List.map_map]
  exact congrArg (fun fn => List.map fn files)
    (funext fun g => keyOf_runOne e g (oracle e g))

/-- C7: for `N` corpus files (with distinct relative paths, as discovery
guarantees) and the `K` algorithms whose build succeeded, a completed batch run
produces exactly `N × K` records, and their (algorithmId, filePath) keys are
pairwise distinct. -/
theorem c7_coverage (buildOk : String → Bool) (files : List GraphFileInfo)
    (oracle : String → GraphFileInfo → ProcOutcome)
    (hfiles : (files.map relOf).Nodup) :
    (runBatch (EXEC_NAMES.filter buildOk) files oracle).length
      = (EXEC_NAMES.filter buildOk).length * files.length ∧
    ((runBatch (EXEC_NAMES.filter buildOk) files oracle).map keyOf).Nodup := by
  refine ⟨runBatch_length _ _ _, ?_⟩
  rw [runBatch_keys, List.nodup_flatMap]
  constructor
  · intro e _
    have hmm : files.map (fun g => (e, relOf g))
        = (files.map relOf).map fun k => (e, k) := by
      rw [List.map_map]
      rfl
    rw [hmm]
    exact List.Nodup.map (fun k1 k2 hk => (Prod.ext_iff.mp hk).2) hfiles
  · have hnd : (EXEC_NAMES.filter buildOk).Nodup :=
      List.Nodup.filter buildOk (by decide)
    refine hnd.imp ?_
    intro e1 e2 hne x hx1 hx2
    obtain ⟨g1, _, rfl⟩ := List.mem_map.mp hx1
    obtain ⟨g2, _, hg2⟩ := List.mem_map.mp hx2
    exact hne ((Prod.ext_iff.mp hg2).1.symm)

/-- Witness for C7: four buildable algorithms over a two-file corpus give eight
records with pairwise-distinct keys. -/
theorem c7_coverage_witness :
    (runBatch (EXEC_NAMES.filter fun _ => true)
        [⟨"a", "x.txt", none, none⟩, ⟨"a", "y.txt", some 1, some 2⟩]
        (fun _ _ => .completed 0 "" 0)).length
      = (EXEC_NAMES.filter fun _ => true).length
          * [(⟨"a", "x.txt", none, none⟩ : GraphFileInfo),
              ⟨"a", "y.txt", some 1, some 2⟩].length ∧
    ((runBatch (EXEC_NAMES.filter fun _ => true)
        [⟨"a", "x.txt", none, none⟩, ⟨"a", "y.txt", some 1, some 2⟩]
        (fun _ _ => .completed 0 "" 0)).map keyOf).Nodup :=
  c7_coverage (fun _ => true)
    [⟨"a", "x.txt", none, none⟩, ⟨"a", "y.txt", some 1, some 2⟩]
    (fun _ _ => .completed 0 "" 0) (by decide)

end Bench
